import Mathlib

/-!
Verification development for the rental-app backend (Go, Echo + GORM).

Shallow embedding of the request-processing pipeline:
`internal/model` (User), `internal/repository/user_repository.go`,
`internal/service/user_service.go`, `internal/service/service.go`
(Transaction), `internal/handler/user.go` (ListUsers clamping, UpdateUser
request mapping) and `pkg/response` (FromError / codeToStatus).

Modelling conventions:
* `uuid.UUID` is a `Nat`; `0` plays the role of `uuid.Nil`; `uuid.New()`
  is an explicit fresh-id argument.
* `time.Time` is a `Nat` (nanoseconds since epoch); each `time.Now()`
  call site becomes an explicit argument, so two distinct call sites may
  observe distinct instants.
* The users table is a `List User` in insertion order; GORM calls are
  modelled by list operations that mirror the generated SQL
  (`First`, `Save` = UPDATE-all-fields with RowsAffected,
  `Delete` with RowsAffected, `Count`, `Order created_at DESC` +
  `Limit`/`Offset`).
* Fallible Go returns `(T, error)` become `Except`.
-/

namespace RentalApp

/-- `internal/model`: the `User` entity (GORM model backing table `users`). -/
structure User where
  id        : Nat
  name      : String
  email     : String
  role      : String
  createdAt : Nat
  updatedAt : Nat
  deriving Repr, DecidableEq

/-- `internal/repository`: the domain error values
`ErrUserNotFound` and `ErrUserAlreadyExists`.  A `storage` constructor
stands for any other storage-library error that the repository lets
through unchanged. -/
inductive RepoErr where
  | userNotFound
  | userAlreadyExists
  | storage (msg : String)
  deriving Repr, DecidableEq

/-- Modelled from the spec: `pkg/apperr` is not among the provided source
files; its closed set of error kinds is taken from §4.1 of the spec (and
matches the `apperr.Code*` names used by `pkg/response`). -/
inductive Code where
  | notFound
  | conflict
  | invalid
  | unauthorized
  | forbidden
  | internal
  deriving Repr, DecidableEq

/-- Modelled from the spec: the classified error type of `pkg/apperr` —
kind, human-readable message and optional wrapped cause. -/
structure AppError where
  code    : Code
  message : String
  cause   : Option RepoErr
  deriving Repr, DecidableEq

/-- Modelled from the spec: `apperr.NotFound(msg, cause)`. -/
def apperrNotFound (msg : String) (cause : Option RepoErr) : AppError :=
  ⟨Code.notFound, msg, cause⟩

/-- Modelled from the spec: `apperr.Conflict(msg, cause)`. -/
def apperrConflict (msg : String) (cause : Option RepoErr) : AppError :=
  ⟨Code.conflict, msg, cause⟩

/-- Modelled from the spec: `apperr.Invalid(msg, cause)`. -/
def apperrInvalid (msg : String) (cause : Option RepoErr) : AppError :=
  ⟨Code.invalid, msg, cause⟩

/-- Modelled from the spec: `apperr.Internal(msg, cause)`. -/
def apperrInternal (msg : String) (cause : Option RepoErr) : AppError :=
  ⟨Code.internal, msg, cause⟩

/-! ## Repository (`internal/repository/user_repository.go`) -/

/-- `GetByID`: `First(&user, "id = ?", id)`; `gorm.ErrRecordNotFound`
is translated to `ErrUserNotFound`. -/
def repoGetByID (rows : List User) (id : Nat) : Except RepoErr User :=
  match rows.find? (fun u => decide (u.id = id)) with
  | some u => Except.ok u
  | none   => Except.error RepoErr.userNotFound

/-- `GetByEmail`: `First(&user, "email = ?", email)`; record-not-found
is translated to `ErrUserNotFound`. -/
def repoGetByEmail (rows : List User) (email : String) : Except RepoErr User :=
  match rows.find? (fun u => decide (u.email = email)) with
  | some u => Except.ok u
  | none   => Except.error RepoErr.userNotFound

/-- `Create`: compare-then-insert — `GetByEmail` first; a non-not-found
error propagates; an existing row yields `ErrUserAlreadyExists`;
otherwise `db.Create(user)` appends the row. -/
def repoCreate (rows : List User) (user : User) : Except RepoErr (List User) :=
  match repoGetByEmail rows user.email with
  | Except.ok _ => Except.error RepoErr.userAlreadyExists
  | Except.error RepoErr.userNotFound => Except.ok (rows ++ [user])
  | Except.error e => Except.error e

/-- The repository's list ordering: `Order("created_at DESC")`.
PostgreSQL sorts by the `created_at` column, descending. -/
def createdDesc (a b : User) : Prop := b.createdAt ≤ a.createdAt

instance : DecidableRel createdDesc := fun a b => Nat.decLe b.createdAt a.createdAt

instance : IsTotal User createdDesc :=
  ⟨fun a b => Nat.le_total b.createdAt a.createdAt⟩

instance : IsTrans User createdDesc :=
  ⟨fun _ _ _ hab hbc => Nat.le_trans hbc hab⟩

/-- The sorted view of the table produced by `Order("created_at DESC")`. -/
def userSort (rows : List User) : List User :=
  List.insertionSort createdDesc rows

/-- The page produced by `Order("created_at DESC").Limit(limit).Offset(offset)`.
GORM cancels a negative limit (no LIMIT clause); a negative offset is no
offset; `Int.toNat` of a negative is `0`, which coincides. -/
def listSlice (rows : List User) (limit offset : Int) : List User :=
  let afterOffset := (userSort rows).drop offset.toNat
  if limit < 0 then afterOffset else afterOffset.take limit.toNat

/-- `List`: `Count` of the whole table, then the ordered/sliced page.
Both are computed against the same state `rows`. -/
def repoList (rows : List User) (limit offset : Int) :
    Except RepoErr (List User × Int) :=
  Except.ok (listSlice rows limit offset, (rows.length : Int))

/-- `Update`: `db.Save(user)` issues `UPDATE ... WHERE id = ?` with all
fields; `RowsAffected == 0` becomes `ErrUserNotFound`. -/
def repoUpdate (rows : List User) (user : User) : Except RepoErr (List User) :=
  let affected := rows.countP (fun u => decide (u.id = user.id))
  if affected = 0 then Except.error RepoErr.userNotFound
  else Except.ok (rows.map (fun u => if u.id = user.id then user else u))

/-- `Delete`: `db.Delete(&model.User{}, "id = ?", id)`;
`RowsAffected == 0` becomes `ErrUserNotFound`. -/
def repoDelete (rows : List User) (id : Nat) : Except RepoErr (List User) :=
  let affected := rows.countP (fun u => decide (u.id = id))
  if affected = 0 then Except.error RepoErr.userNotFound
  else Except.ok (rows.filter (fun u => decide (u.id ≠ id)))

/-! ## Service (`internal/service/user_service.go`) -/

/-- `service.CreateUserInput`. -/
structure CreateUserInput where
  name  : String
  email : String
  role  : String
  deriving Repr, DecidableEq

/-- `service.UpdateUserInput`: pointer fields, `none` = nil pointer. -/
structure UpdateUserInput where
  name : Option String
  role : Option String
  deriving Repr, DecidableEq

/-- `Service.List`: delegates; any repository error becomes `Internal`. -/
def serviceList (rows : List User) (limit offset : Int) :
    Except AppError (List User × Int) :=
  match repoList rows limit offset with
  | Except.ok r => Except.ok r
  | Except.error e => Except.error (apperrInternal ("Failed to fetch users") (some e))

/-- `Service.GetByID`: `ErrUserNotFound` becomes `NotFound`, anything
else `Internal`. -/
def serviceGetByID (rows : List User) (id : Nat) : Except AppError User :=
  match repoGetByID rows id with
  | Except.ok u => Except.ok u
  | Except.error RepoErr.userNotFound =>
      Except.error (apperrNotFound ("User not found") (some RepoErr.userNotFound))
  | Except.error e => Except.error (apperrInternal ("Failed to fetch user") (some e))

/-- `Service.Create`: builds the entity with `uuid.New()` (argument
`newId`) and two separate `time.Now()` reads (arguments `t1` for
`CreatedAt`, `t2` for `UpdatedAt`), then delegates;
`ErrUserAlreadyExists` becomes `Conflict`, anything else `Internal`.
Returns the new table state and the entity handed back to the caller. -/
def serviceCreate (rows : List User) (newId t1 t2 : Nat)
    (input : CreateUserInput) : Except AppError (List User × User) :=
  let user : User :=
    ⟨newId, input.name, input.email, input.role, t1, t2⟩
  match repoCreate rows user with
  | Except.ok rows' => Except.ok (rows', user)
  | Except.error RepoErr.userAlreadyExists =>
      Except.error (apperrConflict ("User with this email already exists")
        (some RepoErr.userAlreadyExists))
  | Except.error e => Except.error (apperrInternal ("Failed to create user") (some e))

/-- The field application step of `Service.Update`: non-nil pointer
fields overwrite, nil fields are left alone; `UpdatedAt` is refreshed
from `time.Now()` (argument `now`). -/
def applyUpdateInput (u : User) (input : UpdateUserInput) (now : Nat) : User :=
  let u1 := match input.name with
    | some n => { u with name := n }
    | none   => u
  let u2 := match input.role with
    | some r => { u1 with role := r }
    | none   => u1
  { u2 with updatedAt := now }

/-- `Service.Update`, with the two repository calls made against
explicit states: the fetch (`GetByID`) runs against `fetchRows` and the
write (`Update`) against `writeRows`, so that a concurrent deletion
between read and write is expressible (`fetchRows = writeRows` is the
interference-free run).  Fetch not-found becomes `NotFound`; any error
from the repository `Update` call is wrapped as `Internal` — the source
performs no `ErrUserNotFound` translation on the write path. -/
def serviceUpdateTwoState (fetchRows writeRows : List User) (id : Nat)
    (input : UpdateUserInput) (now : Nat) :
    Except AppError (List User × User) :=
  match repoGetByID fetchRows id with
  | Except.error RepoErr.userNotFound =>
      Except.error (apperrNotFound ("User not found") (some RepoErr.userNotFound))
  | Except.error e =>
      Except.error (apperrInternal ("Failed to fetch user") (some e))
  | Except.ok user =>
      let user' := applyUpdateInput user input now
      match repoUpdate writeRows user' with
      | Except.ok rows' => Except.ok (rows', user')
      | Except.error e =>
          Except.error (apperrInternal ("Failed to update user") (some e))

/-- `Service.Update` in the interference-free (sequential) run. -/
def serviceUpdate (rows : List User) (id : Nat) (input : UpdateUserInput)
    (now : Nat) : Except AppError (List User × User) :=
  serviceUpdateTwoState rows rows id input now

/-- `Service.Delete`: delegates; `ErrUserNotFound` becomes `NotFound`,
anything else `Internal`. -/
def serviceDelete (rows : List User) (id : Nat) : Except AppError (List User) :=
  match repoDelete rows id with
  | Except.ok rows' => Except.ok rows'
  | Except.error RepoErr.userNotFound =>
      Except.error (apperrNotFound ("User not found") (some RepoErr.userNotFound))
  | Except.error e => Except.error (apperrInternal ("Failed to delete user") (some e))

/-! ## Transaction Context (`internal/service/service.go`) -/

/-- `Services.Transaction`: wraps `gorm.DB.Transaction`, rebuilding the
repository/service set against the transaction handle
(`repository.NewRepositories(tx)` / `NewServices(tx, txRepos)`; the
`Repositories` builder itself is not among the provided sources and is
the plain construction described by the spec's Transaction Context).
GORM's contract: the closure runs against the transaction's view of the
state; a `nil` return commits that view, a non-nil error rolls the view
back to the pre-transaction state and the closure's error is returned
unchanged.  The closure is modelled as a state transformer over the
users table; the result is the post-call table plus the returned error. -/
def servicesTransaction (fn : List User → Except AppError (List User))
    (rows : List User) : List User × Option AppError :=
  match fn rows with
  | Except.ok rows' => (rows', none)
  | Except.error e  => (rows, some e)

/-! ## Handler (`internal/handler/user.go`) -/

/-- `strconv.Atoi` with the error discarded (`limit, _ := strconv.Atoi(...)`):
an optional sign followed by one or more digits parses to its value; any
syntactically invalid string (including the empty string of a missing
query parameter) leaves the zero value `0`. -/
def digitsVal (cs : List Char) : Option Nat :=
  if cs.isEmpty then none
  else cs.foldl
    (fun acc c => acc.bind (fun n =>
      if c.isDigit then some (10 * n + (c.toNat - 48)) else none))
    (some 0)

/-- See `digitsVal`; the handler keeps only the integer result. -/
def goAtoi (s : String) : Int :=
  match s.data with
  | '+' :: rest =>
      (match digitsVal rest with
       | some n => (n : Int)
       | none => 0)
  | '-' :: rest =>
      (match digitsVal rest with
       | some n => -(n : Int)
       | none => 0)
  | cs =>
      (match digitsVal cs with
       | some n => (n : Int)
       | none => 0)

/-- `ListUsers` limit clamping: `if limit <= 0 || limit > 100 { limit = 20 }`. -/
def clampLimit (l : Int) : Int :=
  if l ≤ 0 ∨ 100 < l then 20 else l

/-- `ListUsers` offset clamping: `if offset < 0 { offset = 0 }`. -/
def clampOffset (o : Int) : Int :=
  if o < 0 then 0 else o

/-- The `(limit, offset)` pair `ListUsers` passes to `Service.List`,
as a function of the raw query parameter strings. -/
def listUsersParams (limitParam offsetParam : String) : Int × Int :=
  (clampLimit (goAtoi limitParam), clampOffset (goAtoi offsetParam))

/-- `model.UpdateUserRequest`: the bound JSON body; absent JSON fields
bind to the zero value `""`, indistinguishable from a provided empty
string. -/
structure UpdateUserRequest where
  name : String
  role : String
  deriving Repr, DecidableEq

/-- `UpdateUser`'s construction of the service input:
`if req.Name != "" { input.Name = &req.Name }` — a presence check on
non-emptiness, mapping empty fields to nil pointers. -/
def updateRequestToInput (req : UpdateUserRequest) : UpdateUserInput :=
  { name := if req.name ≠ "" then some req.name else none
    role := if req.role ≠ "" then some req.role else none }

/-- The handler's update path after parsing/validation: build the
service input from the request, then call `Service.Update`. -/
def handlerUpdateUser (rows : List User) (id : Nat) (req : UpdateUserRequest)
    (now : Nat) : Except AppError (List User × User) :=
  serviceUpdate rows id (updateRequestToInput req) now

/-! ## Transport error mapping (`pkg/response`) -/

/-- An error value reaching `response.FromError`: either (something
`errors.As` resolves to) a classified `*apperr.AppError`, or any other
error, carrying only its message text. -/
inductive GoError where
  | app (e : AppError)
  | plain (msg : String)
  deriving Repr, DecidableEq

/-- `response.codeToStatus`: the switch over `apperr.Code`; every
unlisted code (including `internal`) falls to the 500 default. -/
def codeToStatus : Code → Nat
  | Code.notFound     => 404
  | Code.conflict     => 409
  | Code.invalid      => 400
  | Code.unauthorized => 401
  | Code.forbidden    => 403
  | Code.internal     => 500

/-- Modelled from the spec: the string value of each `apperr.Code`
constant (serialised into the response's `code` field); `pkg/apperr` is
not among the provided sources.  Only the `internal` value is pinned by
`pkg/response`'s own literal. -/
def codeValue : Code → String
  | Code.notFound     => "not_found"
  | Code.conflict     => "conflict"
  | Code.invalid      => "invalid"
  | Code.unauthorized => "unauthorized"
  | Code.forbidden    => "forbidden"
  | Code.internal     => "internal"

/-- The JSON error payload plus HTTP status produced by `pkg/response`. -/
structure HttpErrorResponse where
  status  : Nat
  success : Bool
  error   : String
  code    : String
  deriving Repr, DecidableEq

/-- `response.FromError`: a classified `AppError` maps through
`codeToStatus` and exposes its own message and code; any other error
yields the fixed `500 / "Internal server error" / "internal"` response
— the underlying message is logged, never serialised. -/
def FromError (err : GoError) : HttpErrorResponse :=
  match err with
  | GoError.app ae => ⟨codeToStatus ae.code, false, ae.message, codeValue ae.code⟩
  | GoError.plain _ => ⟨500, false, "Internal server error", "internal"⟩

/-! ## Helper lemmas -/

lemma find?_id_eq_none {rows : List User} {id : Nat}
    (h : ∀ u ∈ rows, u.id ≠ id) :
    rows.find? (fun u => decide (u.id = id)) = none :=
  List.find?_eq_none.mpr (fun u hu => by simp [h u hu])

lemma find?_email_eq_none {rows : List User} {email : String}
    (h : ∀ u ∈ rows, u.email ≠ email) :
    rows.find? (fun u => decide (u.email = email)) = none :=
  List.find?_eq_none.mpr (fun u hu => by simp [h u hu])

lemma repoGetByID_ok_id {rows : List User} {id : Nat} {u : User}
    (h : repoGetByID rows id = Except.ok u) : u.id = id := by
  unfold repoGetByID at h
  rcases hf : rows.find? (fun v => decide (v.id = id)) with _ | v
  · rw [hf] at h; exact absurd h (by simp)
  · rw [hf] at h
    injection h with hvu
    have hp := List.find?_some hf
    simp only [decide_eq_true_eq] at hp
    rw [← hvu]
    exact hp

lemma repoGetByID_ok_mem {rows : List User} {id : Nat} {u : User}
    (h : repoGetByID rows id = Except.ok u) : u ∈ rows := by
  unfold repoGetByID at h
  rcases hf : rows.find? (fun v => decide (v.id = id)) with _ | v
  · rw [hf] at h; exact absurd h (by simp)
  · rw [hf] at h
    injection h with hvu
    rw [← hvu]
    exact List.mem_of_find?_eq_some hf

lemma applyUpdateInput_id (u : User) (input : UpdateUserInput) (now : Nat) :
    (applyUpdateInput u input now).id = u.id := by
  rcases input with ⟨n, r⟩
  cases n <;> cases r <;> rfl

lemma applyUpdateInput_email (u : User) (input : UpdateUserInput) (now : Nat) :
    (applyUpdateInput u input now).email = u.email := by
  rcases input with ⟨n, r⟩
  cases n <;> cases r <;> rfl

lemma applyUpdateInput_createdAt (u : User) (input : UpdateUserInput) (now : Nat) :
    (applyUpdateInput u input now).createdAt = u.createdAt := by
  rcases input with ⟨n, r⟩
  cases n <;> cases r <;> rfl

lemma applyUpdateInput_updatedAt (u : User) (input : UpdateUserInput) (now : Nat) :
    (applyUpdateInput u input now).updatedAt = now := by
  rcases input with ⟨n, r⟩
  cases n <;> cases r <;> rfl

lemma applyUpdateInput_name (u : User) (input : UpdateUserInput) (now : Nat) :
    (applyUpdateInput u input now).name = (input.name.getD u.name) := by
  rcases input with ⟨n, r⟩
  cases n <;> cases r <;> rfl

lemma applyUpdateInput_role (u : User) (input : UpdateUserInput) (now : Nat) :
    (applyUpdateInput u input now).role = (input.role.getD u.role) := by
  rcases input with ⟨n, r⟩
  cases n <;> cases r <;> rfl

lemma repoUpdate_ok_of_mem {rows : List User} {user : User}
    (h : ∃ v ∈ rows, v.id = user.id) :
    repoUpdate rows user =
      Except.ok (rows.map (fun v => if v.id = user.id then user else v)) := by
  have hpos : 0 < rows.countP (fun v => decide (v.id = user.id)) :=
    List.countP_pos_iff.mpr (by
      obtain ⟨v, hv, he⟩ := h
      exact ⟨v, hv, by simp [he]⟩)
  simp only [repoUpdate]
  rw [if_neg (Nat.pos_iff_ne_zero.mp hpos)]

lemma repoUpdate_err_of_absent {rows : List User} {user : User}
    (h : ∀ v ∈ rows, v.id ≠ user.id) :
    repoUpdate rows user = Except.error RepoErr.userNotFound := by
  have hz : rows.countP (fun v => decide (v.id = user.id)) = 0 :=
    List.countP_eq_zero.mpr (fun v hv => by simp [h v hv])
  simp only [repoUpdate]
  rw [if_pos hz]

lemma serviceUpdate_ok {rows : List User} {id : Nat} {u : User}
    (input : UpdateUserInput) (now : Nat)
    (hget : repoGetByID rows id = Except.ok u) :
    serviceUpdate rows id input now =
      Except.ok
        (rows.map (fun v =>
          if v.id = (applyUpdateInput u input now).id then
            applyUpdateInput u input now
          else v),
         applyUpdateInput u input now) := by
  unfold serviceUpdate serviceUpdateTwoState
  rw [hget]
  have hmem : ∃ v ∈ rows, v.id = (applyUpdateInput u input now).id :=
    ⟨u, repoGetByID_ok_mem hget, (applyUpdateInput_id u input now).symm⟩
  dsimp only
  rw [repoUpdate_ok_of_mem hmem]

lemma repoCreate_ok_of_fresh {rows : List User} {user : User}
    (h : ∀ v ∈ rows, v.email ≠ user.email) :
    repoCreate rows user = Except.ok (rows ++ [user]) := by
  unfold repoCreate repoGetByEmail
  rw [find?_email_eq_none h]

lemma repoCreate_err_of_existing {rows : List User} {user : User}
    (h : ∃ v ∈ rows, v.email = user.email) :
    repoCreate rows user = Except.error RepoErr.userAlreadyExists := by
  unfold repoCreate repoGetByEmail
  rcases hf : rows.find? (fun v => decide (v.email = user.email)) with _ | w
  · exfalso
    obtain ⟨v, hv, he⟩ := h
    have := List.find?_eq_none.mp hf v hv
    simp [he] at this
  · rw [hf]

lemma serviceCreate_ok_of_fresh {rows : List User} {inp : CreateUserInput}
    {newId t1 t2 : Nat} (h : ∀ v ∈ rows, v.email ≠ inp.email) :
    serviceCreate rows newId t1 t2 inp =
      Except.ok (rows ++ [⟨newId, inp.name, inp.email, inp.role, t1, t2⟩],
                 ⟨newId, inp.name, inp.email, inp.role, t1, t2⟩) := by
  unfold serviceCreate
  dsimp only
  rw [repoCreate_ok_of_fresh h]

lemma serviceCreate_conflict_of_existing {rows : List User}
    {inp : CreateUserInput} {newId t1 t2 : Nat}
    (h : ∃ v ∈ rows, v.email = inp.email) :
    serviceCreate rows newId t1 t2 inp =
      Except.error (apperrConflict ("User with this email already exists")
        (some RepoErr.userAlreadyExists)) := by
  unfold serviceCreate
  dsimp only
  rw [repoCreate_err_of_existing h]

lemma serviceGetByID_append_self {rows : List User} {u : User}
    (h : ∀ v ∈ rows, v.id ≠ u.id) :
    serviceGetByID (rows ++ [u]) u.id = Except.ok u := by
  unfold serviceGetByID repoGetByID
  rw [List.find?_append, find?_id_eq_none h,
      List.find?_cons_of_pos _ (by simp)]
  rfl

lemma repoDelete_err_of_absent {rows : List User} {id : Nat}
    (h : ∀ u ∈ rows, u.id ≠ id) :
    repoDelete rows id = Except.error RepoErr.userNotFound := by
  have hz : rows.countP (fun u => decide (u.id = id)) = 0 :=
    List.countP_eq_zero.mpr (fun v hv => by simp [h v hv])
  simp only [repoDelete]
  rw [if_pos hz]

lemma repoDelete_ok_of_mem {rows : List User} {id : Nat}
    (h : ∃ u ∈ rows, u.id = id) :
    repoDelete rows id =
      Except.ok (rows.filter (fun u => decide (u.id ≠ id))) := by
  have hpos : 0 < rows.countP (fun u => decide (u.id = id)) :=
    List.countP_pos_iff.mpr (by
      obtain ⟨v, hv, he⟩ := h
      exact ⟨v, hv, by simp [he]⟩)
  simp only [repoDelete]
  rw [if_neg (Nat.pos_iff_ne_zero.mp hpos)]

lemma serviceDelete_err_of_absent {rows : List User} {id : Nat}
    (h : ∀ u ∈ rows, u.id ≠ id) :
    serviceDelete rows id =
      Except.error (apperrNotFound ("User not found")
        (some RepoErr.userNotFound)) := by
  unfold serviceDelete
  rw [repoDelete_err_of_absent h]

/-! ## Claims -/

/-- C9: every classified error is mapped by the transport layer to its
fixed status code (NotFound 404, Conflict 409, Invalid 400,
Unauthorized 401, Forbidden 403, Internal 500), and any error that is
not a classified AppError produces a 500 response whose body is the
fixed generic message, independent of the wrapped cause text. -/
theorem C9_from_error_status_mapping :
    (∀ e : AppError, FromError (GoError.app e) =
      ⟨codeToStatus e.code, false, e.message, codeValue e.code⟩) ∧
    codeToStatus Code.notFound = 404 ∧
    codeToStatus Code.conflict = 409 ∧
    codeToStatus Code.invalid = 400 ∧
    codeToStatus Code.unauthorized = 401 ∧
    codeToStatus Code.forbidden = 403 ∧
    codeToStatus Code.internal = 500 ∧
    (∀ msg : String, FromError (GoError.plain msg) =
      ⟨500, false, "Internal server error", "internal"⟩) :=
  ⟨fun _ => rfl, rfl, rfl, rfl, rfl, rfl, rfl, fun _ => rfl⟩

/-- C10: the ListUsers handler clamps pagination before calling the
Service: a parsed limit that is non-positive or greater than 100
(including the 0 produced by a missing or non-numeric parameter) is
replaced by 20, a negative (or unparseable, hence 0, already
non-negative) offset is replaced by 0; consequently the Service's List
is always invoked with a limit in [1, 100] and a non-negative offset. -/
theorem C10_list_users_clamping :
    (∀ limitParam offsetParam : String,
      1 ≤ (listUsersParams limitParam offsetParam).1 ∧
      (listUsersParams limitParam offsetParam).1 ≤ 100 ∧
      0 ≤ (listUsersParams limitParam offsetParam).2) ∧
    (∀ l : Int, (l ≤ 0 ∨ 100 < l) → clampLimit l = 20) ∧
    (∀ o : Int, o < 0 → clampOffset o = 0) ∧
    goAtoi ("") = 0 ∧ goAtoi ("abc") = 0 := by
  refine ⟨fun ls os => ?_, fun l hl => ?_, fun o ho => ?_, rfl, rfl⟩
  · unfold listUsersParams clampLimit clampOffset
    refine ⟨?_, ?_, ?_⟩ <;> dsimp only <;> split_ifs <;> omega
  · unfold clampLimit
    rw [if_pos hl]
  · unfold clampOffset
    rw [if_pos ho]

/-- C10 witness: the clamps applied at concrete out-of-range inputs. -/
theorem C10_list_users_clamping_witness :
    clampLimit (-7) = 20 ∧ clampLimit 101 = 20 ∧ clampOffset (-3) = 0 :=
  ⟨C10_list_users_clamping.2.1 (-7) (by left; decide),
   C10_list_users_clamping.2.1 101 (by right; decide),
   C10_list_users_clamping.2.2.1 (-3) (by decide)⟩

/-- C3: for every closure handed to the Transaction Context, the
persistence effects performed through the bound Service+Repository set
either all commit (the closure returns success: the final state is the
closure's final state) or all roll back (the closure returns any
failure: the final state is the pre-transaction state, i.e. zero
persisted side effects, and the classified error that triggered the
rollback is the error returned to the caller). -/
theorem C3_transaction_atomicity
    (fn : List User → Except AppError (List User)) (rows : List User) :
    (∀ e : AppError, fn rows = Except.error e →
      servicesTransaction fn rows = (rows, some e)) ∧
    (∀ rows' : List User, fn rows = Except.ok rows' →
      servicesTransaction fn rows = (rows', none)) := by
  constructor
  · intro e he
    unfold servicesTransaction
    rw [he]
  · intro rows' hok
    unfold servicesTransaction
    rw [hok]

/-- C4: for every pair of Create calls with the same email against a
store with no prior user of that email, the first call succeeds, the
second returns the Conflict classified error translated from the
Repository's compare-then-insert "already exists" signal, and exactly
one user record with that email persists. -/
theorem C4_duplicate_email_conflict (rows : List User)
    (inp inp2 : CreateUserInput) (id1 id2 t1 t2 t3 t4 : Nat)
    (hemail : inp2.email = inp.email)
    (hfresh : ∀ u ∈ rows, u.email ≠ inp.email) :
    ∃ rows' user,
      serviceCreate rows id1 t1 t2 inp = Except.ok (rows', user) ∧
      serviceCreate rows' id2 t3 t4 inp2 =
        Except.error (apperrConflict ("User with this email already exists")
          (some RepoErr.userAlreadyExists)) ∧
      rows'.countP (fun u => decide (u.email = inp.email)) = 1 := by
  refine ⟨rows ++ [⟨id1, inp.name, inp.email, inp.role, t1, t2⟩],
          ⟨id1, inp.name, inp.email, inp.role, t1, t2⟩,
          serviceCreate_ok_of_fresh hfresh, ?_, ?_⟩
  · apply serviceCreate_conflict_of_existing
    exact ⟨⟨id1, inp.name, inp.email, inp.role, t1, t2⟩, by simp, hemail.symm⟩
  · rw [List.countP_append]
    have h0 : rows.countP (fun u => decide (u.email = inp.email)) = 0 :=
      List.countP_eq_zero.mpr (fun v hv => by simp [hfresh v hv])
    rw [h0]
    simp [List.countP_cons]

/-- C4 witness: the duplicate-email scenario at a concrete input. -/
theorem C4_duplicate_email_conflict_witness :
    ∃ rows' user,
      serviceCreate [] 1 10 10 ⟨"Ann", "ann@x.com", "user"⟩ =
        Except.ok (rows', user) ∧
      serviceCreate rows' 2 11 11 ⟨"Bob", "ann@x.com", "admin"⟩ =
        Except.error (apperrConflict ("User with this email already exists")
          (some RepoErr.userAlreadyExists)) ∧
      rows'.countP (fun u => decide (u.email = "ann@x.com")) = 1 :=
  C4_duplicate_email_conflict [] ⟨"Ann", "ann@x.com", "user"⟩
    ⟨"Bob", "ann@x.com", "admin"⟩ 1 2 10 10 11 11 rfl (by simp)

/-- C5 counterexample: `Service.Create` reads the clock once for
`CreatedAt` and again for `UpdatedAt`; with the two reads at instants 0
and 1, the create succeeds, the immediately-following GetByID returns
the created entity with a non-empty id, yet `created_at ≠ updated_at`,
refuting the claimed equality. -/
theorem C5_counterexample :
    serviceCreate [] 1 0 1 ⟨"Ann", "ann@x.com", "user"⟩ =
      Except.ok ([⟨1, "Ann", "ann@x.com", "user", 0, 1⟩],
        ⟨1, "Ann", "ann@x.com", "user", 0, 1⟩) ∧
    serviceGetByID [⟨1, "Ann", "ann@x.com", "user", 0, 1⟩] 1 =
      Except.ok ⟨1, "Ann", "ann@x.com", "user", 0, 1⟩ ∧
    (⟨1, "Ann", "ann@x.com", "user", 0, 1⟩ : User).createdAt ≠
      (⟨1, "Ann", "ann@x.com", "user", 0, 1⟩ : User).updatedAt :=
  ⟨rfl, rfl, by decide⟩

/-- C5 amended: GetByID immediately after a successful Create returns a
value equal to the created entity, with id non-empty and
`created_at ≤ updated_at`; the two fields are equal exactly when the
two clock reads taken by Create coincide. -/
theorem C5_create_then_get (rows : List User) (inp : CreateUserInput)
    (newId t1 t2 : Nat) (hid : newId ≠ 0)
    (hidfresh : ∀ u ∈ rows, u.id ≠ newId)
    (hefresh : ∀ u ∈ rows, u.email ≠ inp.email)
    (ht : t1 ≤ t2) :
    ∃ rows' user,
      serviceCreate rows newId t1 t2 inp = Except.ok (rows', user) ∧
      serviceGetByID rows' user.id = Except.ok user ∧
      user.id ≠ 0 ∧
      user.createdAt ≤ user.updatedAt ∧
      (t1 = t2 → user.createdAt = user.updatedAt) := by
  refine ⟨rows ++ [⟨newId, inp.name, inp.email, inp.role, t1, t2⟩],
          ⟨newId, inp.name, inp.email, inp.role, t1, t2⟩,
          serviceCreate_ok_of_fresh hefresh,
          serviceGetByID_append_self hidfresh, hid, ht, fun h => h⟩

/-- C5 witness: the amended create-then-get property at a concrete
input whose two clock reads coincide. -/
theorem C5_create_then_get_witness :
    ∃ rows' user,
      serviceCreate [⟨2, "Zed", "z@x.com", "user", 0, 0⟩] 1 4 4
        ⟨"Ann", "ann@x.com", "user"⟩ = Except.ok (rows', user) ∧
      serviceGetByID rows' user.id = Except.ok user ∧
      user.id ≠ 0 ∧
      user.createdAt ≤ user.updatedAt ∧
      (4 = 4 → user.createdAt = user.updatedAt) :=
  C5_create_then_get [⟨2, "Zed", "z@x.com", "user", 0, 0⟩]
    ⟨"Ann", "ann@x.com", "user"⟩ 1 4 4 (by decide) (by decide) (by decide)
    (by decide)

/-- C7: deleting an id with no matching row yields the NotFound
classified error; for an id that is present, the first Delete succeeds
and the second Delete of the same id returns NotFound. -/
theorem C7_delete_not_found (rows : List User) (id : Nat) :
    ((∀ u ∈ rows, u.id ≠ id) →
      serviceDelete rows id =
        Except.error (apperrNotFound ("User not found")
          (some RepoErr.userNotFound))) ∧
    ((∃ u ∈ rows, u.id = id) →
      ∃ rows', serviceDelete rows id = Except.ok rows' ∧
        serviceDelete rows' id =
          Except.error (apperrNotFound ("User not found")
            (some RepoErr.userNotFound))) := by
  constructor
  · intro h
    exact serviceDelete_err_of_absent h
  · intro h
    refine ⟨rows.filter (fun u => decide (u.id ≠ id)), ?_, ?_⟩
    · unfold serviceDelete
      rw [repoDelete_ok_of_mem h]
    · apply serviceDelete_err_of_absent
      intro u hu
      have := (List.mem_filter.mp hu).2
      simpa using this

/-- C7 witness: both halves at a concrete one-user store. -/
theorem C7_delete_not_found_witness :
    serviceDelete [⟨1, "Ann", "ann@x.com", "user", 0, 0⟩] 2 =
      Except.error (apperrNotFound ("User not found")
        (some RepoErr.userNotFound)) ∧
    (∃ rows',
      serviceDelete [⟨1, "Ann", "ann@x.com", "user", 0, 0⟩] 1 =
        Except.ok rows' ∧
      serviceDelete rows' 1 =
        Except.error (apperrNotFound ("User not found")
          (some RepoErr.userNotFound))) :=
  ⟨(C7_delete_not_found [⟨1, "Ann", "ann@x.com", "user", 0, 0⟩] 2).1
      (by decide),
   (C7_delete_not_found [⟨1, "Ann", "ann@x.com", "user", 0, 0⟩] 1).2
      (by decide)⟩

/-- C1 counterexample: an Update request explicitly supplying the empty
string for `name` (and `role`) does not overwrite the stored fields —
the handler's `req.Name != ""` presence check maps provided-empty to
not-provided, so the stored name stays `"Ann"` instead of becoming
empty as the claim's tri-state reading requires. -/
theorem C1_counterexample :
    handlerUpdateUser [⟨1, "Ann", "ann@x.com", "user", 0, 0⟩] 1 ⟨"", ""⟩ 5 =
      Except.ok ([⟨1, "Ann", "ann@x.com", "user", 0, 5⟩],
        ⟨1, "Ann", "ann@x.com", "user", 0, 5⟩) ∧
    (⟨1, "Ann", "ann@x.com", "user", 0, 5⟩ : User).name = "Ann" ∧
    "Ann" ≠ ("") :=
  ⟨rfl, rfl, by decide⟩

/-- C1 amended: for every Update request the handler maps empty request
fields to nil service-input pointers, and the Service overwrites
exactly the non-nil fields; hence a field supplied empty is treated the
same as an absent field (left untouched) — a two-state presence check
at the request boundary, while non-empty supplied fields overwrite and
all other fields are untouched. -/
theorem C1_update_presence_semantics (rows : List User) (id : Nat)
    (req : UpdateUserRequest) (now : Nat) (u : User)
    (hget : repoGetByID rows id = Except.ok u) :
    ∃ rows' u',
      handlerUpdateUser rows id req now = Except.ok (rows', u') ∧
      u'.id = u.id ∧ u'.email = u.email ∧ u'.createdAt = u.createdAt ∧
      u'.name = (if req.name = "" then u.name else req.name) ∧
      u'.role = (if req.role = "" then u.role else req.role) ∧
      u'.updatedAt = now := by
  refine ⟨_, applyUpdateInput u (updateRequestToInput req) now,
    serviceUpdate_ok (updateRequestToInput req) now hget,
    applyUpdateInput_id u _ now, applyUpdateInput_email u _ now,
    applyUpdateInput_createdAt u _ now, ?_, ?_,
    applyUpdateInput_updatedAt u _ now⟩
  · rw [applyUpdateInput_name]
    unfold updateRequestToInput
    dsimp only
    by_cases h : req.name = ""
    · simp [h]
    · simp [h]
  · rw [applyUpdateInput_role]
    unfold updateRequestToInput
    dsimp only
    by_cases h : req.role = ""
    · simp [h]
    · simp [h]

/-- C1 witness: a request supplying an empty name and a non-empty role
leaves the name untouched and overwrites the role. -/
theorem C1_update_presence_semantics_witness :
    ∃ rows' u',
      handlerUpdateUser [⟨1, "Ann", "ann@x.com", "user", 0, 3⟩] 1
        ⟨"", "admin"⟩ 9 = Except.ok (rows', u') ∧
      u'.id = 1 ∧ u'.email = "ann@x.com" ∧ u'.createdAt = 0 ∧
      u'.name = (if ("" : String) = "" then "Ann" else "") ∧
      u'.role = (if ("admin" : String) = "" then "user" else "admin") ∧
      u'.updatedAt = 9 :=
  C1_update_presence_semantics [⟨1, "Ann", "ann@x.com", "user", 0, 3⟩] 1
    ⟨"", "admin"⟩ 9 ⟨1, "Ann", "ann@x.com", "user", 0, 3⟩ rfl

/-- C2 counterexample: with the row deleted between the Service's fetch
and its write, the Repository's Update does fail with the domain
not-found signal, but `Service.Update` classifies that failure as
Internal, not NotFound. -/
theorem C2_counterexample :
    repoUpdate []
        (applyUpdateInput ⟨1, "Ann", "ann@x.com", "user", 0, 0⟩
          ⟨none, none⟩ 5) =
      Except.error RepoErr.userNotFound ∧
    serviceUpdateTwoState [⟨1, "Ann", "ann@x.com", "user", 0, 0⟩] [] 1
        ⟨none, none⟩ 5 =
      Except.error (apperrInternal ("Failed to update user")
        (some RepoErr.userNotFound)) ∧
    Code.internal ≠ Code.notFound :=
  ⟨rfl, rfl, by decide⟩

/-- C2 amended: when the Repository's Update matches zero rows (the row
deleted between fetch and write), the Repository-boundary failure is
the domain not-found signal, but `Service.Update` wraps every failure
of the Repository's Update call as a classified Internal error — the
not-found translation exists only on its fetch path — so the Service
boundary reports Internal, not NotFound. -/
theorem C2_update_race_internal (fetchRows writeRows : List User)
    (id : Nat) (u : User) (input : UpdateUserInput) (now : Nat)
    (hget : repoGetByID fetchRows id = Except.ok u)
    (hgone : ∀ v ∈ writeRows, v.id ≠ id) :
    repoUpdate writeRows (applyUpdateInput u input now) =
      Except.error RepoErr.userNotFound ∧
    serviceUpdateTwoState fetchRows writeRows id input now =
      Except.error (apperrInternal ("Failed to update user")
        (some RepoErr.userNotFound)) := by
  have hid : (applyUpdateInput u input now).id = id := by
    rw [applyUpdateInput_id]
    exact repoGetByID_ok_id hget
  have hrepo : repoUpdate writeRows (applyUpdateInput u input now) =
      Except.error RepoErr.userNotFound :=
    repoUpdate_err_of_absent (fun v hv => by rw [hid]; exact hgone v hv)
  refine ⟨hrepo, ?_⟩
  unfold serviceUpdateTwoState
  rw [hget]
  dsimp only
  rw [hrepo]

/-- C2 witness: the race at a concrete store, with a field update. -/
theorem C2_update_race_internal_witness :
    repoUpdate []
        (applyUpdateInput ⟨1, "Ann", "ann@x.com", "user", 0, 0⟩
          ⟨some "Bo", none⟩ 7) =
      Except.error RepoErr.userNotFound ∧
    serviceUpdateTwoState [⟨1, "Ann", "ann@x.com", "user", 0, 0⟩] [] 1
        ⟨some "Bo", none⟩ 7 =
      Except.error (apperrInternal ("Failed to update user")
        (some RepoErr.userNotFound)) :=
  C2_update_race_internal [⟨1, "Ann", "ann@x.com", "user", 0, 0⟩] [] 1
    ⟨1, "Ann", "ann@x.com", "user", 0, 0⟩ ⟨some "Bo", none⟩ 7 rfl
    (by simp)

/-- C6: a partial Update on an existing user leaves every unsupplied
field (id, email, created_at, and name/role when not supplied) equal to
its prior persisted value, and advances updated_at to the write-time
clock value, which is >= the prior updated_at whenever the clock has
not gone backwards since the prior write. -/
theorem C6_update_frame (rows : List User) (id : Nat) (u : User)
    (input : UpdateUserInput) (now : Nat)
    (hget : repoGetByID rows id = Except.ok u)
    (hclock : u.updatedAt ≤ now) :
    ∃ rows' u',
      serviceUpdate rows id input now = Except.ok (rows', u') ∧
      u'.id = u.id ∧ u'.email = u.email ∧ u'.createdAt = u.createdAt ∧
      (input.name = none → u'.name = u.name) ∧
      (input.role = none → u'.role = u.role) ∧
      u.updatedAt ≤ u'.updatedAt := by
  refine ⟨_, applyUpdateInput u input now, serviceUpdate_ok input now hget,
    applyUpdateInput_id u input now, applyUpdateInput_email u input now,
    applyUpdateInput_createdAt u input now, ?_, ?_, ?_⟩
  · intro hn
    rw [applyUpdateInput_name, hn]
    rfl
  · intro hr
    rw [applyUpdateInput_role, hr]
    rfl
  · rw [applyUpdateInput_updatedAt]
    exact hclock

/-- C6 witness: an update supplying only the name, on a store whose
clock has advanced. -/
theorem C6_update_frame_witness :
    ∃ rows' u',
      serviceUpdate [⟨1, "Ann", "ann@x.com", "user", 0, 3⟩] 1
        ⟨some "Bo", none⟩ 5 = Except.ok (rows', u') ∧
      u'.id = 1 ∧ u'.email = "ann@x.com" ∧ u'.createdAt = 0 ∧
      ((some "Bo" : Option String) = none → u'.name = "Ann") ∧
      ((none : Option String) = none → u'.role = "user") ∧
      3 ≤ u'.updatedAt :=
  C6_update_frame [⟨1, "Ann", "ann@x.com", "user", 0, 3⟩] 1
    ⟨1, "Ann", "ann@x.com", "user", 0, 3⟩ ⟨some "Bo", none⟩ 5 rfl
    (by decide)

lemma listSlice_20_0 (rows : List User) :
    listSlice rows 20 0 = (userSort rows).take 20 := rfl

lemma listSlice_20_20 (rows : List User) :
    listSlice rows 20 20 = ((userSort rows).drop 20).take 20 := rfl

/-- C8: for a store whose rows carry pairwise-distinct ids, `List` with
`limit=20, offset=0` and then `limit=20, offset=20` returns disjoint
pages, both ordered by creation time descending; their concatenation
reproduces the full stored set (as a permutation) whenever the total
fits in the two pages; and the returned total always equals the number
of stored rows, unaffected by limit and offset. -/
theorem C8_pagination_pages (rows : List User)
    (hids : (rows.map User.id).Nodup) :
    (∀ limit offset : Int, repoList rows limit offset =
      Except.ok (listSlice rows limit offset, (rows.length : Int))) ∧
    List.Disjoint (listSlice rows 20 0) (listSlice rows 20 20) ∧
    List.Sorted createdDesc (listSlice rows 20 0) ∧
    List.Sorted createdDesc (listSlice rows 20 20) ∧
    (rows.length ≤ 40 →
      (listSlice rows 20 0 ++ listSlice rows 20 20).Perm rows) := by
  have hperm : (userSort rows).Perm rows :=
    List.perm_insertionSort createdDesc rows
  have hnodup : (userSort rows).Nodup :=
    hperm.nodup_iff.mpr (List.Nodup.of_map User.id hids)
  have hsorted : List.Sorted createdDesc (userSort rows) :=
    List.sorted_insertionSort createdDesc rows
  refine ⟨fun _ _ => rfl, ?_, ?_, ?_, ?_⟩
  · rw [listSlice_20_0, listSlice_20_20]
    intro a ha hb
    exact List.disjoint_take_drop hnodup (Nat.le_refl 20) ha
      (List.take_subset _ _ hb)
  · rw [listSlice_20_0]
    exact List.Pairwise.sublist (List.take_sublist _ _) hsorted
  · rw [listSlice_20_20]
    exact List.Pairwise.sublist
      ((List.take_sublist _ _).trans (List.drop_sublist _ _)) hsorted
  · intro hlen
    rw [listSlice_20_0, listSlice_20_20, ← List.take_add]
    have hall : (userSort rows).take (20 + 20) = userSort rows :=
      List.take_of_length_le (by rw [hperm.length_eq]; omega)
    rw [hall]
    exact hperm

/-- C8 witness: the two pages over a concrete three-user store. -/
theorem C8_pagination_pages_witness :
    repoList [⟨1, "A", "a@x.com", "user", 5, 5⟩,
              ⟨2, "B", "b@x.com", "user", 9, 9⟩,
              ⟨3, "C", "c@x.com", "user", 7, 7⟩] 20 0 =
      Except.ok (listSlice [⟨1, "A", "a@x.com", "user", 5, 5⟩,
              ⟨2, "B", "b@x.com", "user", 9, 9⟩,
              ⟨3, "C", "c@x.com", "user", 7, 7⟩] 20 0, (3 : Int)) ∧
    List.Disjoint
      (listSlice [⟨1, "A", "a@x.com", "user", 5, 5⟩,
              ⟨2, "B", "b@x.com", "user", 9, 9⟩,
              ⟨3, "C", "c@x.com", "user", 7, 7⟩] 20 0)
      (listSlice [⟨1, "A", "a@x.com", "user", 5, 5⟩,
              ⟨2, "B", "b@x.com", "user", 9, 9⟩,
              ⟨3, "C", "c@x.com", "user", 7, 7⟩] 20 20) ∧
    (listSlice [⟨1, "A", "a@x.com", "user", 5, 5⟩,
              ⟨2, "B", "b@x.com", "user", 9, 9⟩,
              ⟨3, "C", "c@x.com", "user", 7, 7⟩] 20 0 ++
     listSlice [⟨1, "A", "a@x.com", "user", 5, 5⟩,
              ⟨2, "B", "b@x.com", "user", 9, 9⟩,
              ⟨3, "C", "c@x.com", "user", 7, 7⟩] 20 20).Perm
      [⟨1, "A", "a@x.com", "user", 5, 5⟩,
       ⟨2, "B", "b@x.com", "user", 9, 9⟩,
       ⟨3, "C", "c@x.com", "user", 7, 7⟩] := by
  have h := C8_pagination_pages
    [⟨1, "A", "a@x.com", "user", 5, 5⟩,
     ⟨2, "B", "b@x.com", "user", 9, 9⟩,
     ⟨3, "C", "c@x.com", "user", 7, 7⟩] (by decide)
  exact ⟨h.1 20 0, h.2.1, h.2.2.2.2 (by decide)⟩

/-- A two-step closure for the Transaction Context: step one creates a
user through the bound service set, step two fails with `Invalid`. -/
def twoStepDemo (rows : List User) : Except AppError (List User) :=
  match serviceCreate rows 7 3 3 ⟨"Bob", "bob@x.com", "user"⟩ with
  | Except.ok (_, _) => Except.error (apperrInvalid ("step two rejected") none)
  | Except.error e => Except.error e

/-- C3 witness: a concrete multi-step run whose second step fails with
`Invalid` leaves the store exactly as before the transaction, and the
`Invalid` error is what the caller receives. -/
theorem C3_transaction_atomicity_witness :
    servicesTransaction twoStepDemo [] =
      ([], some (apperrInvalid ("step two rejected") none)) :=
  (C3_transaction_atomicity twoStepDemo []).1
    (apperrInvalid ("step two rejected") none) rfl

end RentalApp
